import Mathlib

/-!
# Shallow embedding of the stream-statistics-client core

Definitions are translated from the Go sources of the repository:
the statistics counters, the restart-delay distribution sampler, the
RTMP endpoint registry with URL templating, the stream pool, and the
REST batch endpoint handler.  Theorems settling the specification
claims follow the definitions.

Modelling conventions:
* Go `uint64` values are `Nat` reduced modulo `2^64` at each operation
  that can wrap; `time.Duration` (Go `int64` nanoseconds) is `Int`;
  `float64` accumulation is modelled over `ℚ`.
* Randomness (`rand.Intn`, `rand.Int63n`, `rand.NormFloat64`) is made
  explicit: each sampling function takes the value drawn from the
  underlying generator as an argument.
* A Go panic is modelled as `Option.none`.
-/

namespace StreamStats

/-- Modulus of Go's `uint64` arithmetic. -/
def U64 : Nat := 2 ^ 64

/-- Go's `math.MaxUint64`. -/
def MaxUint64 : Nat := 2 ^ 64 - 1

theorem U64_pos : 0 < U64 := by decide

/-- Wrapping `uint64` subtraction `a - b`, for operands already reduced
modulo `2^64` (Go's `current - previous` on `uint64`). -/
def sub64 (a b : Nat) : Nat := (a + U64 - b) % U64

/-- `IncrementedCounter` (statistics counters file): cumulative counter holding
the current `uint64` value and the reference stored by the last `ComputeDiff`. -/
structure IncrementedCounter where
  current : Nat
  previous : Nat
deriving Repr, DecidableEq

/-- `IncrementedCounter.Increment`: `atomic.AddUint64(&c.current, val)`. -/
def IncrementedCounter.Increment (c : IncrementedCounter) (val : Nat) : IncrementedCounter :=
  { c with current := (c.current + val) % U64 }

/-- A sequence of `Increment` calls. -/
def IncrementedCounter.IncrementAll (c : IncrementedCounter) (vals : List Nat) : IncrementedCounter :=
  vals.foldl IncrementedCounter.Increment c

/-- `IncrementedCounter.ComputeDiff`: returns the pair
(current absolute value, computed delta `diff`) and the counter with the
reference reset to the current value.  The Go code reports
`diff / timeDiff.Seconds()` as a rate; that final float division is not
modelled, the returned `diff` is the value it divides.
`diff := current - previous` is wrapping `uint64` subtraction; the
`current < previous` branch overwrites it with
`math.MaxUint64 - previous + current`. -/
def IncrementedCounter.ComputeDiff (c : IncrementedCounter) :
    (Nat × Nat) × IncrementedCounter :=
  let current := c.current
  let previous := c.previous
  let diff := sub64 current previous
  let diff := if current < previous then (MaxUint64 - previous + current) % U64 else diff
  ((current, diff), { current := current, previous := current })

/-- `AveragingCounter` (statistics counters file): running count and sum.
The Go `float64` sum is modelled over `ℚ`. -/
structure AveragingCounter where
  count : Nat
  value : ℚ
deriving DecidableEq

/-- `AveragingCounter.Add`: increments the count and accumulates the value. -/
def AveragingCounter.Add (avg : AveragingCounter) (val : ℚ) : AveragingCounter :=
  { count := avg.count + 1, value := avg.value + val }

/-- A sequence of `Add` calls. -/
def AveragingCounter.AddAll (avg : AveragingCounter) (vals : List ℚ) : AveragingCounter :=
  vals.foldl AveragingCounter.Add avg

/-- `AveragingCounter.ComputeAvg`: returns `value / count` (or `0` when
`count = 0`) and resets both fields to zero. -/
def AveragingCounter.ComputeAvg (avg : AveragingCounter) : ℚ × AveragingCounter :=
  (if avg.count = 0 then 0 else avg.value / (avg.count : ℚ), { count := 0, value := 0 })

/-- `TwoWayCounter` (statistics counters file): a signed gauge. -/
structure TwoWayCounter where
  value : Int
deriving Repr, DecidableEq

/-- `TwoWayCounter.Increment`: `atomic.AddInt64` (int64 overflow not modelled). -/
def TwoWayCounter.Increment (c : TwoWayCounter) (val : Int) : TwoWayCounter :=
  { value := c.value + val }

theorem IncrementedCounter.incrementAll_spec (c : IncrementedCounter) (ds : List Nat)
    (h : c.current < U64) :
    (c.IncrementAll ds).current = (c.current + ds.sum) % U64 ∧
    (c.IncrementAll ds).previous = c.previous := by
  induction ds generalizing c with
  | nil =>
      simpa [IncrementedCounter.IncrementAll] using (Nat.mod_eq_of_lt h).symm
  | cons d ds ih =>
      have hlt : (c.current + d) % U64 < U64 := Nat.mod_lt _ U64_pos
      have := ih (c.Increment d) (by simpa [IncrementedCounter.Increment] using hlt)
      simp only [IncrementedCounter.IncrementAll, List.foldl_cons] at this ⊢
      rcases this with ⟨h1, h2⟩
      refine ⟨?_, by simpa [IncrementedCounter.Increment] using h2⟩
      rw [h1]
      simp [IncrementedCounter.Increment, Nat.mod_add_mod, List.sum_cons, Nat.add_assoc]

theorem AveragingCounter.addAll_spec (c : AveragingCounter) (vals : List ℚ) :
    (c.AddAll vals).count = c.count + vals.length ∧
    (c.AddAll vals).value = c.value + vals.sum := by
  induction vals generalizing c with
  | nil => simp [AveragingCounter.AddAll]
  | cons v vs ih =>
      have := ih (c.Add v)
      simp only [AveragingCounter.AddAll, List.foldl_cons] at this ⊢
      rcases this with ⟨h1, h2⟩
      constructor
      · rw [h1]; simp [AveragingCounter.Add]; omega
      · rw [h2]; simp [AveragingCounter.Add]; ring

/-- C1: the claim is refuted at a concrete input.  Seed the counter at
`MaxUint64` (reference reset by a `ComputeDiff`), then a single add of `2`
wraps the `uint64` value to `1`.  The exact sum of the adds since the previous
`ComputeDiff` call is `2`, but the wrap branch computes
`math.MaxUint64 - previous + current = 1`: the reported delta is one less than
the exact sum. -/
theorem C1_counterexample :
    ([2].sum = 2) ∧
    (((((IncrementedCounter.mk 0 0).IncrementAll
        [2 ^ 64 - 1]).ComputeDiff.2).IncrementAll [2]).ComputeDiff.1.2 = 1) ∧
    (1 : Nat) ≠ 2 := by
  refine ⟨rfl, ?_, by decide⟩
  decide

/-- C1 (amended): starting from a counter whose reference equals its value
(the state left by the previous `ComputeDiff`), after any sequence of adds
with sum `< 2^64`, `ComputeDiff` reports the exact sum of the adds as its
delta when the `uint64` value does not wrap, and exactly one less than that
sum when it wraps (`current < previous`); in both cases the stored reference
is reset to the current value. -/
theorem C1_delta_correct (p : Nat) (ds : List Nat) (hp : p < U64) (hS : ds.sum < U64) :
    (p + ds.sum < U64 →
      (((IncrementedCounter.mk p p).IncrementAll ds).ComputeDiff.1.2 = ds.sum)) ∧
    (U64 ≤ p + ds.sum →
      (((IncrementedCounter.mk p p).IncrementAll ds).ComputeDiff.1.2 = ds.sum - 1)) ∧
    (((IncrementedCounter.mk p p).IncrementAll ds).ComputeDiff.2.previous
      = ((IncrementedCounter.mk p p).IncrementAll ds).current) := by
  obtain ⟨hcur, hprev⟩ :=
    IncrementedCounter.incrementAll_spec (IncrementedCounter.mk p p) ds hp
  refine ⟨?_, ?_, rfl⟩
  · intro hlt
    have hc : ((IncrementedCounter.mk p p).IncrementAll ds).current = p + ds.sum := by
      rw [hcur]; exact Nat.mod_eq_of_lt hlt
    simp only [IncrementedCounter.ComputeDiff, hc, hprev]
    have hnot : ¬ (p + ds.sum < p) := by omega
    simp only [if_neg hnot, sub64]
    have : p + ds.sum + U64 - p = ds.sum + U64 := by omega
    rw [this, Nat.add_mod_right, Nat.mod_eq_of_lt hS]
  · intro hge
    have hlt2 : p + ds.sum - U64 < U64 := by omega
    have hc : ((IncrementedCounter.mk p p).IncrementAll ds).current = p + ds.sum - U64 := by
      rw [hcur]
      show (p + ds.sum) % U64 = p + ds.sum - U64
      rw [Nat.mod_eq_sub_mod hge]
      exact Nat.mod_eq_of_lt hlt2
    simp only [IncrementedCounter.ComputeDiff, hc, hprev]
    have hwrap : p + ds.sum - U64 < p := by omega
    simp only [if_pos hwrap]
    have hM : MaxUint64 = U64 - 1 := by decide
    have hU : 1 ≤ U64 := U64_pos
    have : MaxUint64 - p + (p + ds.sum - U64) = ds.sum - 1 := by
      rw [hM]; omega
    rw [this, Nat.mod_eq_of_lt (by omega)]

/-- Witness for C1 (amended) at `p = 2^64 - 1`, adds `[2]`: the wrap case
reports `2 - 1 = 1`. -/
theorem C1_delta_correct_witness :
    (2 ^ 64 - 1 < U64) ∧ (List.sum [2] < U64) ∧
    ((2 ^ 64 - 1 + [2].sum < U64 →
      (((IncrementedCounter.mk (2 ^ 64 - 1) (2 ^ 64 - 1)).IncrementAll
        [2]).ComputeDiff.1.2 = [2].sum)) ∧
    (U64 ≤ 2 ^ 64 - 1 + [2].sum →
      (((IncrementedCounter.mk (2 ^ 64 - 1) (2 ^ 64 - 1)).IncrementAll
        [2]).ComputeDiff.1.2 = [2].sum - 1)) ∧
    (((IncrementedCounter.mk (2 ^ 64 - 1) (2 ^ 64 - 1)).IncrementAll
        [2]).ComputeDiff.2.previous
      = ((IncrementedCounter.mk (2 ^ 64 - 1) (2 ^ 64 - 1)).IncrementAll [2]).current)) :=
  ⟨by decide, by decide, C1_delta_correct (2 ^ 64 - 1) [2] (by decide) (by decide)⟩

/-- Go's `math.Round`: round half away from zero. -/
def goRound (q : ℚ) : Int :=
  if q < 0 then -(Int.floor (-q + 1/2)) else Int.floor (q + 1/2)

/-- `NormalDistribution` (random-distribution-helpers.go): mean and standard
deviation, both `time.Duration` (int64 nanoseconds). -/
structure NormalDistribution where
  mu : Int
  sigma : Int
deriving Repr, DecidableEq

/-- `NormalDistribution.Sample`:
`math.Round(rand.NormFloat64()*float64(sigma) + float64(mu))`, with the
normal variate `z` drawn by `rand.NormFloat64` made an explicit argument and
`float64` arithmetic modelled over `ℚ`.  The result is returned as-is: the
source contains no clamping of negative values. -/
def NormalDistribution.Sample (d : NormalDistribution) (z : ℚ) : Int :=
  goRound (z * (d.sigma : ℚ) + (d.mu : ℚ))

/-- `ConstDistribution` (random-distribution-helpers.go). -/
structure ConstDistribution where
  value : Int
deriving Repr, DecidableEq

/-- `ConstDistribution.Sample`. -/
def ConstDistribution.Sample (d : ConstDistribution) : Int := d.value

/-- `EqualDistribution` (random-distribution-helpers.go). -/
structure EqualDistribution where
  min : Int
  max : Int
deriving Repr, DecidableEq

/-- `EqualDistribution.Sample`:
`rand.Int63n(int64(max)-int64(min)) + int64(min)`, with the value `r` drawn
by the generator made explicit.  `rand.Int63n(n)` panics when `n ≤ 0`
(modelled as `none`) and otherwise returns a uniform value in `[0, n)`
(modelled as `r % n`). -/
def EqualDistribution.Sample (d : EqualDistribution) (r : Nat) : Option Int :=
  let n : Int := d.max - d.min
  if n ≤ 0 then none else some ((r : Int) % n + d.min)

/-- The `Distribution` interface: closed sum of the three implementations. -/
inductive Distribution where
  | const : ConstDistribution → Distribution
  | equal : EqualDistribution → Distribution
  | norm : NormalDistribution → Distribution
deriving Repr, DecidableEq

/-- `strings.Split` for a one-character separator, on character lists
(Go's `strings.Split(s, ":")` and `strings.Split(s, ",")`). -/
def splitOnChar (sep : Char) : List Char → List (List Char)
  | [] => [[]]
  | c :: rest =>
    match splitOnChar sep rest with
    | [] => [[]]
    | g :: gs => if c = sep then [] :: g :: gs else (c :: g) :: gs

/-- Decimal digit value. -/
def digitVal (c : Char) : Nat := c.toNat - '0'.toNat

/-- `leadingInt` of Go `time.ParseDuration`: consume leading digits
(the `int64` overflow error is not modelled). -/
def leadingIntAux (acc : Nat) : List Char → Nat × List Char
  | [] => (acc, [])
  | c :: rest =>
    if c.isDigit then leadingIntAux (acc * 10 + digitVal c) rest else (acc, c :: rest)

/-- `leadingFraction` of Go `time.ParseDuration`: consume fraction digits,
returning the digits value and the scale `10^digits` (overflow capping not
modelled). -/
def leadingFractionAux (f scale : Nat) : List Char → Nat × Nat × List Char
  | [] => (f, scale, [])
  | c :: rest =>
    if c.isDigit then leadingFractionAux (f * 10 + digitVal c) (scale * 10) rest
    else (f, scale, c :: rest)

/-- The `unitMap` of Go `time.ParseDuration` (values in nanoseconds). -/
def unitMap : String → Option Int
  | "ns" => some 1
  | "us" => some 1000
  | "µs" => some 1000
  | "μs" => some 1000
  | "ms" => some 1000000
  | "s" => some 1000000000
  | "m" => some 60000000000
  | "h" => some 3600000000000
  | _ => none

/-- Main loop of Go `time.ParseDuration`: repeatedly consume
`[0-9]*(\.[0-9]*)?<unit>`.  The fraction contribution
`int64(float64(f) * (float64(unit)/scale))` is modelled as the truncated
integer `f * unit / scale`; overflow checks are not modelled.  The `fuel`
argument only bounds the recursion; each iteration consumes at least one
character, so `length + 1` fuel never runs out. -/
def parseDurationLoop : Nat → List Char → Int → Option Int
  | 0, _, _ => none
  | _ + 1, [], d => some d
  | fuel + 1, c0 :: cs, d =>
    if ¬ (c0 = '.' ∨ c0.isDigit) then none
    else
      let s := c0 :: cs
      let vr := leadingIntAux 0 s
      let pre : Bool := vr.2.length != s.length
      let fr :=
        match vr.2 with
        | '.' :: r =>
          let fsr := leadingFractionAux 0 1 r
          (fsr.1, fsr.2.1, fsr.2.2, (fsr.2.2.length != r.length : Bool))
        | _ => (0, 1, vr.2, false)
      if pre = false ∧ fr.2.2.2 = false then none
      else
        let unitChars := fr.2.2.1.takeWhile fun c => ¬ (c = '.' ∨ c.isDigit)
        let s3 := fr.2.2.1.dropWhile fun c => ¬ (c = '.' ∨ c.isDigit)
        if unitChars = [] then none
        else
          match unitMap (String.mk unitChars) with
          | none => none
          | some unit =>
            let vv : Int := (vr.1 : Int) * unit
              + (if 0 < fr.1 then ((fr.1 : Int) * unit) / (fr.2.1 : Int) else 0)
            parseDurationLoop fuel s3 (d + vv)

/-- Go `time.ParseDuration` on a character list: optional sign, the special
case `"0"`, then the consumption loop.  `none` is a parse error (Go also
returns duration `0` in that case). -/
def timeParseDuration (chars : List Char) : Option Int :=
  let sr : Bool × List Char :=
    match chars with
    | '-' :: r => (true, r)
    | '+' :: r => (false, r)
    | r => (false, r)
  if sr.2 = ['0'] then some 0
  else if sr.2 = [] then none
  else
    match parseDurationLoop (sr.2.length + 1) sr.2 0 with
    | none => none
    | some d => some (if sr.1 then -d else d)

/-- `parseDuration` (random-distribution-helpers.go): wraps
`time.ParseDuration` and rejects negative durations.  On error Go's
`ParseDuration` returns value `0 ≥ 0`, so the first branch returns the error;
the remaining success value is rejected iff negative. -/
def parseDuration (chars : List Char) : Option Int :=
  match timeParseDuration chars with
  | none => none
  | some v => if v < 0 then none else some v

/-- `DistributionSampler.Set` (random-distribution-helpers.go): parses a
`<kind>:<params>` spec and installs the parsed distribution, or leaves the
current distribution `cur` unchanged and reports an error (messages
abbreviated from the Go `fmt.Errorf` texts).  Note the `equal` branch parses
`min` through the repository's `parseDuration` (which rejects negatives) but
`max` through plain `time.ParseDuration`, and performs no `min ≤ max` check. -/
def DistributionSampler.Set (value : String) (cur : Option Distribution) :
    Option Distribution × Option String :=
  let chars := value.data
  if chars.length = 0 ∨ ¬ chars.contains ':' then
    (cur, some "Distribution type and parameters must be devided by ':'.")
  else
    let typeAndParams := splitOnChar ':' chars
    if typeAndParams.length ≠ 2 then (cur, some "Missing distribution parameters.")
    else
      let ty := typeAndParams[0]!
      let paramChars := typeAndParams[1]!
      let params := splitOnChar ',' paramChars
      if ty = "const".data then
        if params.length ≠ 1 then
          (cur, some "Constant distribution expects exactly one parameter.")
        else
          match parseDuration paramChars with
          | some v => (some (.const ⟨v⟩), none)
          | none => (cur, some "invalid const parameter")
      else if ty = "equal".data then
        if params.length ≠ 2 then
          (cur, some "Equal distribution expects exactly two parameters.")
        else
          match parseDuration params[0]! with
          | none => (cur, some "invalid equal min parameter")
          | some mn =>
            match timeParseDuration params[1]! with
            | none => (cur, some "invalid equal max parameter")
            | some mx => (some (.equal ⟨mn, mx⟩), none)
      else if ty = "norm".data then
        if params.length ≠ 2 then
          (cur, some "Normal distribution expects exactly two parameters.")
        else
          match parseDuration params[0]! with
          | none => (cur, some "invalid norm mu parameter")
          | some mu =>
            match parseDuration params[1]! with
            | none => (cur, some "invalid norm sigma parameter")
            | some sigma => (some (.norm ⟨mu, sigma⟩), none)
      else (cur, some "Unknown distribution type identifier.")

/-- C9: `AveragingCounter.ComputeAvg` returns `0` when no add occurred since
the last reset (the reset state is `{count := 0, value := 0}`), returns the
arithmetic mean `sum / count` of the `N > 0` values added since the last
reset, and resets the state so that an immediately following call returns `0`
again. -/
theorem C9_computeAvg (vals : List ℚ) (hne : vals ≠ []) :
    ((AveragingCounter.mk 0 0).ComputeAvg.1 = 0) ∧
    (((AveragingCounter.mk 0 0).AddAll vals).ComputeAvg.1
      = vals.sum / (vals.length : ℚ)) ∧
    (((AveragingCounter.mk 0 0).AddAll vals).ComputeAvg.2 = AveragingCounter.mk 0 0) ∧
    (((AveragingCounter.mk 0 0).AddAll vals).ComputeAvg.2.ComputeAvg.1 = 0) := by
  obtain ⟨hcount, hvalue⟩ := AveragingCounter.addAll_spec (AveragingCounter.mk 0 0) vals
  have hlen : vals.length ≠ 0 := by
    intro h; exact hne (List.length_eq_zero.mp h)
  refine ⟨rfl, ?_, rfl, rfl⟩
  simp only [AveragingCounter.ComputeAvg, hcount, hvalue]
  simp [hlen]

/-- Witness for C9 at `vals = [1, 2, 3]`: the mean is `2`. -/
theorem C9_computeAvg_witness :
    ([(1 : ℚ), 2, 3] ≠ []) ∧
    (((AveragingCounter.mk 0 0).ComputeAvg.1 = 0) ∧
    (((AveragingCounter.mk 0 0).AddAll [(1 : ℚ), 2, 3]).ComputeAvg.1
      = [(1 : ℚ), 2, 3].sum / (List.length [(1 : ℚ), 2, 3] : ℚ)) ∧
    (((AveragingCounter.mk 0 0).AddAll [(1 : ℚ), 2, 3]).ComputeAvg.2
      = AveragingCounter.mk 0 0) ∧
    (((AveragingCounter.mk 0 0).AddAll [(1 : ℚ), 2, 3]).ComputeAvg.2.ComputeAvg.1 = 0)) :=
  ⟨by decide, C9_computeAvg [(1 : ℚ), 2, 3] (by decide)⟩

/-- C2: the claim is refuted at a concrete input.  For the parsed
distribution `norm:0s,1s` (mean `0`, standard deviation `10^9` ns, both
non-negative) and normal variate `z = -1`, `Sample` returns `-10^9 < 0`:
nothing in the source clamps the negative tail to zero. -/
theorem C2_counterexample :
    (0 : Int) ≤ (NormalDistribution.mk 0 1000000000).mu ∧
    (0 : Int) ≤ (NormalDistribution.mk 0 1000000000).sigma ∧
    (NormalDistribution.mk 0 1000000000).Sample (-1) = -1000000000 ∧
    ¬ (0 ≤ (NormalDistribution.mk 0 1000000000).Sample (-1)) := by
  have hs : (NormalDistribution.mk 0 1000000000).Sample (-1) = -1000000000 := by
    simp only [NormalDistribution.Sample, goRound]
    rw [show (-1 : ℚ) * (((NormalDistribution.mk 0 1000000000).sigma : Int) : ℚ)
        + (((NormalDistribution.mk 0 1000000000).mu : Int) : ℚ) = -1000000000 by
      push_cast; norm_num]
    rw [if_pos (by norm_num)]
    have : Int.floor (-(-1000000000 : ℚ) + 1/2) = 1000000000 := by
      rw [Int.floor_eq_iff]
      norm_num
    rw [this]
  refine ⟨by decide, by decide, hs, by rw [hs]; decide⟩

/-- C2 (amended): `NormalDistribution.Sample` performs no clamping: it returns
the rounded value `z·σ + μ` directly.  With non-negative mean and standard
deviation it is non-negative whenever the sampled variate `z` is non-negative,
but whenever `z·σ + μ ≤ -1/2` the returned duration is negative. -/
theorem C2_sample_no_clamp (d : NormalDistribution) (z : ℚ)
    (hmu : 0 ≤ d.mu) (hsigma : 0 ≤ d.sigma) :
    (0 ≤ z → 0 ≤ d.Sample z) ∧
    (z * (d.sigma : ℚ) + (d.mu : ℚ) ≤ -(1/2) → d.Sample z < 0) := by
  constructor
  · intro hz
    have hq : 0 ≤ z * (d.sigma : ℚ) + (d.mu : ℚ) := by
      have h1 : (0 : ℚ) ≤ z * (d.sigma : ℚ) := by
        apply mul_nonneg hz
        exact_mod_cast hsigma
      have h2 : (0 : ℚ) ≤ (d.mu : ℚ) := by exact_mod_cast hmu
      linarith
    simp only [NormalDistribution.Sample, goRound, if_neg (not_lt.mpr hq)]
    have : (0 : ℚ) ≤ z * (d.sigma : ℚ) + (d.mu : ℚ) + 1/2 := by linarith
    exact Int.floor_nonneg.mpr this
  · intro hq
    have hneg : z * (d.sigma : ℚ) + (d.mu : ℚ) < 0 := by linarith
    simp only [NormalDistribution.Sample, goRound, if_pos hneg]
    have h1 : (1 : ℚ) ≤ -(z * (d.sigma : ℚ) + (d.mu : ℚ)) + 1/2 := by linarith
    have h2 : (1 : Int) ≤ Int.floor (-(z * (d.sigma : ℚ) + (d.mu : ℚ)) + 1/2) := by
      rw [Int.le_floor]
      exact_mod_cast h1
    omega

/-- Witness for C2 (amended) at `μ = 0`, `σ = 10^9`, `z = 0`. -/
theorem C2_sample_no_clamp_witness :
    (0 : Int) ≤ (NormalDistribution.mk 0 1000000000).mu ∧
    (0 : Int) ≤ (NormalDistribution.mk 0 1000000000).sigma ∧
    ((0 ≤ (0 : ℚ) → 0 ≤ (NormalDistribution.mk 0 1000000000).Sample 0) ∧
     ((0 : ℚ) * ((NormalDistribution.mk 0 1000000000).sigma : ℚ)
        + ((NormalDistribution.mk 0 1000000000).mu : ℚ) ≤ -(1/2) →
      (NormalDistribution.mk 0 1000000000).Sample 0 < 0)) :=
  ⟨by decide, by decide,
    C2_sample_no_clamp (NormalDistribution.mk 0 1000000000) 0 (by decide) (by decide)⟩

/-- C4: the claim is refuted at concrete inputs.  `equal:2s,1s` parses
successfully although `min = 2s > max = 1s`, and `equal:1s,-1s` parses
successfully although `max = -1s` is negative: the `equal` branch checks
neither ordering nor the sign of `max` (which is parsed by plain
`time.ParseDuration` instead of the repository's `parseDuration`). -/
theorem C4_counterexample :
    (DistributionSampler.Set "equal:2s,1s" none
      = (some (Distribution.equal (EqualDistribution.mk 2000000000 1000000000)), none)) ∧
    (DistributionSampler.Set "equal:1s,-1s" none
      = (some (Distribution.equal (EqualDistribution.mk 1000000000 (-1000000000))), none)) ∧
    ((1000000000 : Int) < 2000000000) ∧ ((-1000000000 : Int) < 0) := by
  refine ⟨by decide, by decide, by decide, by decide⟩

/-- C4 (amended): parsing `equal:<min>,<max>` succeeds exactly when `<min>`
parses through the repository's `parseDuration` (which rejects negative
durations) and `<max>` parses through plain `time.ParseDuration` (negative
values accepted); no `min ≤ max` check is performed, so any such pair is
stored as `EqualDistribution{min, max}`.  When either parse fails, `Set`
returns an error and the sampler's distribution is left unchanged. -/
theorem C4_equal_parse (value : String) (cur : Option Distribution)
    (ps p1 p2 : List Char)
    (hvc : value.data.contains ':' = true)
    (hsplit : splitOnChar ':' value.data = ["equal".data, ps])
    (hps : splitOnChar ',' ps = [p1, p2]) :
    (∀ mn mx, parseDuration p1 = some mn → timeParseDuration p2 = some mx →
      DistributionSampler.Set value cur
        = (some (Distribution.equal (EqualDistribution.mk mn mx)), none)) ∧
    (parseDuration p1 = none →
      (DistributionSampler.Set value cur).1 = cur ∧
      (DistributionSampler.Set value cur).2.isSome = true) ∧
    (∀ mn, parseDuration p1 = some mn → timeParseDuration p2 = none →
      (DistributionSampler.Set value cur).1 = cur ∧
      (DistributionSampler.Set value cur).2.isSome = true) := by
  have hne : value.data ≠ [] := by
    intro h; rw [h] at hvc; simp [List.contains] at hvc
  have hlen : ¬ (value.data.length = 0 ∨ ¬ value.data.contains ':' = true) := by
    push_neg
    exact ⟨fun h => hne (List.length_eq_zero.mp h), hvc⟩
  have hset : DistributionSampler.Set value cur =
      (match parseDuration p1 with
       | none => (cur, some "invalid equal min parameter")
       | some mn =>
         match timeParseDuration p2 with
         | none => (cur, some "invalid equal max parameter")
         | some mx => (some (.equal ⟨mn, mx⟩), none)) := by
    simp only [DistributionSampler.Set, if_neg hlen, hsplit, hps]
    simp only [List.length_cons, List.length_nil, List.getElem!_cons_zero,
      List.getElem!_cons_succ]
    rw [if_neg (by decide)]
    rw [if_neg (by decide : ¬ ("equal".data = "const".data))]
    rw [if_pos trivial, hps]
    rw [if_neg (by simp)]
    simp only [List.getElem!_cons_zero, List.getElem!_cons_succ]
  refine ⟨?_, ?_, ?_⟩
  · intro mn mx h1 h2
    rw [hset, h1, h2]
  · intro h1
    rw [hset, h1]
    exact ⟨rfl, rfl⟩
  · intro mn h1 h2
    rw [hset, h1, h2]
    exact ⟨rfl, rfl⟩

/-- Witness for C4 (amended): `equal:2s,1s` stores `{min := 2s, max := 1s}`. -/
theorem C4_equal_parse_witness :
    DistributionSampler.Set "equal:2s,1s" none
      = (some (Distribution.equal (EqualDistribution.mk 2000000000 1000000000)), none) :=
  (C4_equal_parse "equal:2s,1s" none "2s,1s".data "2s".data "1s".data
    (by decide) (by decide) (by decide)).1 2000000000 1000000000 (by decide) (by decide)

/-- C10: the parser accepts `equal:1s,1s` (storing `min = max = 1s`); for
every `EqualDistribution` with `max - min ≤ 0`, `Sample` panics
(`rand.Int63n` with a non-positive bound, modelled as `none`); and when
`min < max`, `Sample` returns a value in the half-open interval
`[min, max)`, never `max` itself. -/
theorem C10_equal_sample (mn mx : Int) (r : Nat) :
    (DistributionSampler.Set "equal:1s,1s" none
      = (some (Distribution.equal (EqualDistribution.mk 1000000000 1000000000)), none)) ∧
    (mx ≤ mn → EqualDistribution.Sample (EqualDistribution.mk mn mx) r = none) ∧
    (mn < mx →
      EqualDistribution.Sample (EqualDistribution.mk mn mx) r
        = some ((r : Int) % (mx - mn) + mn) ∧
      mn ≤ (r : Int) % (mx - mn) + mn ∧ (r : Int) % (mx - mn) + mn < mx) := by
  refine ⟨by decide, ?_, ?_⟩
  · intro h
    simp only [EqualDistribution.Sample]
    rw [if_pos (by omega)]
  · intro h
    have hn : (0 : Int) < mx - mn := by omega
    have h1 : (0 : Int) ≤ (r : Int) % (mx - mn) := Int.emod_nonneg _ (by omega)
    have h2 : (r : Int) % (mx - mn) < mx - mn := Int.emod_lt_of_pos _ hn
    refine ⟨?_, by omega, by omega⟩
    simp only [EqualDistribution.Sample]
    rw [if_neg (by omega)]

/-- Witness for C10: `equal:1s,1s` panics at sample time; with
`min = 0, max = 10^9, r = 5` the sample is `5 ∈ [0, 10^9)`. -/
theorem C10_equal_sample_witness :
    (EqualDistribution.Sample (EqualDistribution.mk 1000000000 1000000000) 5 = none) ∧
    (EqualDistribution.Sample (EqualDistribution.mk 0 1000000000) 5 = some 5 ∧
      (0 : Int) ≤ 5 ∧ (5 : Int) < 1000000000) := by
  constructor
  · exact (C10_equal_sample 1000000000 1000000000 5).2.1 (by decide)
  · have h := (C10_equal_sample 0 1000000000 5).2.2 (by decide)
    simpa using h

/-- The pool state of `StreamStatisticsCollector` (main.go) relevant to
resizing: the slice of running streams (each `RunningStream` abstracted to
`Unit`) and the global stop flag (`c.stopper.Stopped()`).  All resize
operations run under `streamsLock`; the lock itself is not modelled. -/
structure Collector where
  runningStreams : List Unit
  stopped : Bool
deriving Repr, DecidableEq

/-- `StreamStatisticsCollector.SetNumberOfStreams` (main.go:121-148): clamps
a negative target to 0; shrinks by truncating the slice (each removed stream
is stopped and joined, not modelled further); grows only when the global
stopper has not been fired, appending freshly started streams. -/
def Collector.SetNumberOfStreams (c : Collector) (num : Int) : Collector :=
  let num : Int := if num < 0 then 0 else num
  let n := num.toNat
  if c.runningStreams.length > n then
    { c with runningStreams := c.runningStreams.take n }
  else if c.runningStreams.length < n then
    if c.stopped then c
    else { c with runningStreams :=
      c.runningStreams ++ List.replicate (n - c.runningStreams.length) () }
  else c

/-- `StreamStatisticsCollector.Close` (main.go:150-153): fires the global
stopper, then resizes to 0. -/
def Collector.Close (c : Collector) : Collector :=
  Collector.SetNumberOfStreams { c with stopped := true } 0

theorem Collector.setNumberOfStreams_length (c : Collector) (num : Int) :
    (c.SetNumberOfStreams num).runningStreams.length =
      if num.toNat < c.runningStreams.length then num.toNat
      else if c.runningStreams.length < num.toNat then
        (if c.stopped then c.runningStreams.length else num.toNat)
      else c.runningStreams.length := by
  have hn : (if num < 0 then (0 : Int) else num).toNat = num.toNat := by
    split <;> omega
  simp only [Collector.SetNumberOfStreams, hn]
  split_ifs <;>
    simp_all [List.length_take, List.length_append, List.length_replicate] <;>
    omega

theorem Collector.setNumberOfStreams_stopped (c : Collector) (num : Int) :
    (c.SetNumberOfStreams num).stopped = c.stopped := by
  simp only [Collector.SetNumberOfStreams]
  split_ifs <;> rfl

/-- C5: starting from any pool state that has not been stopped, a
`SetNumberOfStreams num` call leaves exactly `max(num, 0)` running streams
(`Int.toNat` clamps negative targets to 0).  `Close` fires the stopper and
leaves 0 running streams.  Once stopped, a resize can still shrink but never
grow (`min` of the current count and the clamped target); in particular a
resize to a positive target from the stopped, empty pool leaves 0 streams. -/
theorem C5_pool (c : Collector) (num : Int) :
    (c.stopped = false →
      (c.SetNumberOfStreams num).runningStreams.length = num.toNat) ∧
    ((c.Close).runningStreams.length = 0 ∧ (c.Close).stopped = true) ∧
    (c.stopped = true →
      (c.SetNumberOfStreams num).runningStreams.length
        = min c.runningStreams.length num.toNat) ∧
    (c.stopped = true → 0 < num → c.runningStreams.length = 0 →
      (c.SetNumberOfStreams num).runningStreams.length = 0) := by
  have h1 := Collector.setNumberOfStreams_length c num
  have h2 := Collector.setNumberOfStreams_length { c with stopped := true } 0
  have h3 := Collector.setNumberOfStreams_stopped { c with stopped := true } 0
  refine ⟨?_, ⟨?_, ?_⟩, ?_, ?_⟩
  · intro hs; rw [h1, hs]; split_ifs <;> simp_all <;> omega
  · show (Collector.SetNumberOfStreams { c with stopped := true } 0).runningStreams.length = 0
    rw [h2]; split_ifs <;> simp_all
  · show (Collector.SetNumberOfStreams { c with stopped := true } 0).stopped = true
    rw [h3]
  · intro hs; rw [h1, hs]; split_ifs <;> simp_all <;> omega
  · intro hs hpos hzero; rw [h1, hs, hzero]; split_ifs <;> simp_all

/-- Witness for C5 at a two-stream unstopped pool resized to 3, and the
corresponding stopped pool. -/
theorem C5_pool_witness :
    ((Collector.mk [(), ()] false).SetNumberOfStreams 3).runningStreams.length = 3 ∧
    ((Collector.mk [(), ()] false).Close).runningStreams.length = 0 ∧
    ((Collector.mk [(), ()] false).Close).stopped = true ∧
    ((Collector.mk [(), ()] true).SetNumberOfStreams 3).runningStreams.length = 2 ∧
    ((Collector.mk [] true).SetNumberOfStreams 3).runningStreams.length = 0 := by
  have h1 := C5_pool (Collector.mk [(), ()] false) 3
  have h2 := C5_pool (Collector.mk [(), ()] true) 3
  have h3 := C5_pool (Collector.mk [] true) 3
  refine ⟨?_, h1.2.1.1, h1.2.1.2, ?_, h3.2.2.2 rfl (by decide) rfl⟩
  · have := h1.1 rfl; simpa using this
  · have := h2.2.2.1 rfl; simpa using this

/-- The endpoint registry as manipulated by `SetUrlsRestApi` (rest-api.go):
the factory's `hosts` slice and the `hostURLs` map (URLs modelled by their
strings, the Go map by a function). -/
structure UrlRegistry where
  hosts : List String
  hostURLs : String → List String

/-- One per-entry line written to the HTTP response by
`appendEndpointURLs`: the "successfully added" message or the
"Error handling streaming endpoint" message. -/
inductive Report where
  | success (host : String) (urls : List String)
  | failure (urls : List String) (err : String)
deriving Repr, DecidableEq

/-- `SetUrlsRestApi.appendEndpointURLs` (rest-api.go:46-58), parameterised by
the factory's `ParseURLArgument` (signature `(host, urls, error)`).  The
source tests `er != nil`: when the parse *errored* it appends the returned
host and URLs to the registry and writes the success message, and when the
parse *succeeded* (`er == nil`) it writes the error message and adds
nothing. -/
def appendEndpointURLs (parse : String → String × List String × Option String)
    (lines : List String) (reg : UrlRegistry) : UrlRegistry × List Report :=
  lines.foldl
    (fun acc entry =>
      match parse entry with
      | (host, urls, some _) =>
        ({ hosts := acc.1.hosts ++ [host],
           hostURLs := fun h =>
             if h = host then acc.1.hostURLs h ++ urls else acc.1.hostURLs h },
         acc.2 ++ [Report.success host urls])
      | (_, urls, none) =>
        (acc.1, acc.2 ++ [Report.failure urls "error"]))
    (reg, [])

/-- C3 at concrete inputs: a single entry whose parse succeeds
(`er == nil`, returning host `"host"` and one URL) leaves the registry
untouched and is reported as an error, while a single entry whose parse
fails (`ParseURLArgument` returns `("", nil, err)`) appends the empty host
to the registry and is reported as a success — the exact inversion of the
claimed behaviour, caused by the `er != nil` test in the success branch. -/
theorem C3_inverted_error_check :
    (((appendEndpointURLs (fun _ => ("host", ["rtmp://host/app/stream"], none))
        ["rtmp://host/app/stream"] (UrlRegistry.mk [] fun _ => [])).1.hosts = []) ∧
     ((appendEndpointURLs (fun _ => ("host", ["rtmp://host/app/stream"], none))
        ["rtmp://host/app/stream"] (UrlRegistry.mk [] fun _ => [])).1.hostURLs "host" = []) ∧
     ((appendEndpointURLs (fun _ => ("host", ["rtmp://host/app/stream"], none))
        ["rtmp://host/app/stream"] (UrlRegistry.mk [] fun _ => [])).2
        = [Report.failure ["rtmp://host/app/stream"] "error"])) ∧
    (((appendEndpointURLs (fun _ => ("", [], some "parse error"))
        ["://bad"] (UrlRegistry.mk [] fun _ => [])).1.hosts = [""]) ∧
     ((appendEndpointURLs (fun _ => ("", [], some "parse error"))
        ["://bad"] (UrlRegistry.mk [] fun _ => [])).2 = [Report.success "" []])) := by
  refine ⟨⟨rfl, rfl, by decide⟩, ⟨by decide, by decide⟩⟩

/-- Minimal model of Go's `net/url.URL` for the absolute
`scheme://host/path?query` URLs this program handles: no userinfo, port
splitting, fragments or percent-escaping. -/
structure GoURL where
  scheme : String
  host : String
  path : String
  query : List (String × String)
deriving Repr, DecidableEq

/-- `RtmpEndpoint` (rtmp-stream.go): URL plus the `pixels` metadata. -/
structure RtmpEndpoint where
  url : GoURL
  pixels : Nat
deriving Repr, DecidableEq

/-- `RtmpHost` (rtmp-stream.go): a host name and its endpoint slice. -/
structure RtmpHost where
  host : String
  endpoints : List RtmpEndpoint
deriving Repr, DecidableEq

/-- `RtmpHost.getRandomEndpoint`: `h.endpoints[rand.Intn(len(h.endpoints))]`,
with the generator value `r` explicit; `rand.Intn(0)` panics (`none`). -/
def RtmpHost.getRandomEndpoint (h : RtmpHost) (r : Nat) : Option RtmpEndpoint :=
  if he : h.endpoints.length = 0 then none
  else some (h.endpoints.get ⟨r % h.endpoints.length, Nat.mod_lt _ (Nat.pos_of_ne_zero he)⟩)

/-- `RtmpStreamFactory` (rtmp-stream.go): registry state used by endpoint
selection — the host slice and the round-robin cursor. -/
structure RtmpStreamFactory where
  hosts : List RtmpHost
  hostCounter : Nat
deriving Repr, DecidableEq

/-- The error values a selection can produce: the distinguished
`ErrorNoURLs`, or any other error. -/
inductive StreamError where
  | ErrorNoURLs
  | other (msg : String)
deriving Repr, DecidableEq

/-- `RtmpStreamFactory.nextHost` (rtmp-stream.go:95-103): with no hosts,
`ErrorNoURLs`; otherwise the host at `hostCounter % len(hosts)`, and the
cursor advances. -/
def RtmpStreamFactory.nextHost (f : RtmpStreamFactory) :
    Except StreamError RtmpHost × RtmpStreamFactory :=
  if h : f.hosts.length = 0 then (.error .ErrorNoURLs, f)
  else
    (.ok (f.hosts.get ⟨f.hostCounter % f.hosts.length, Nat.mod_lt _ (Nat.pos_of_ne_zero h)⟩),
     { f with hostCounter := f.hostCounter + 1 })

/-- Loop body of `RtmpStreamFactory.nextEndpoint` (rtmp-stream.go:82-93):
`for i := len(f.hosts); i >= 0; i--`, i.e. `len(hosts) + 1` iterations; a
`nextHost` failure returns `ErrorNoURLs` immediately; a host with endpoints
yields a random endpoint of that host; otherwise continue.  The inner `none`
branch is unreachable: `getRandomEndpoint` is only consulted when the host
has endpoints. -/
def nextEndpointAux (r : Nat) : Nat → RtmpStreamFactory →
    Except StreamError RtmpEndpoint × RtmpStreamFactory
  | 0, f => (.error .ErrorNoURLs, f)
  | k + 1, f =>
    match f.nextHost with
    | (.error _, f1) => (.error .ErrorNoURLs, f1)
    | (.ok h, f1) =>
      if 0 < h.endpoints.length then
        match h.getRandomEndpoint r with
        | some e => (.ok e, f1)
        | none => (.error (.other "panic"), f1)
      else nextEndpointAux r k f1

/-- `RtmpStreamFactory.nextEndpoint`. -/
def RtmpStreamFactory.nextEndpoint (f : RtmpStreamFactory) (r : Nat) :
    Except StreamError RtmpEndpoint × RtmpStreamFactory :=
  nextEndpointAux r (f.hosts.length + 1) f

/-- A sequence of `nextEndpoint` calls, one generator value per call,
collecting the results. -/
def selectRun (f : RtmpStreamFactory) : List Nat →
    List (Except StreamError RtmpEndpoint) × RtmpStreamFactory
  | [] => ([], f)
  | r :: rest =>
    let step := f.nextEndpoint r
    let rec' := selectRun step.2 rest
    (step.1 :: rec'.1, rec'.2)

/-- The open-error dispatch of `RunningStream.handleStream`
(main.go:236-247): `ErrorNoURLs` sleeps `noUrlsSleepDuration` and retries
without touching any counter; any other open error increments the `errors`
counter; a successful open proceeds into the receive loop.  The returned
`Bool` is "back off and retry without counting an error". -/
def handleStreamOpenPhase (res : Except StreamError Unit) (errors : IncrementedCounter) :
    IncrementedCounter × Bool :=
  match res with
  | .error .ErrorNoURLs => (errors, true)
  | .error (.other _) => (errors.Increment 1, false)
  | .ok _ => (errors, false)

theorem nextEndpoint_success (f : RtmpStreamFactory) (r : Nat)
    (hn : 0 < f.hosts.length)
    (hne : ∀ h ∈ f.hosts, h.endpoints ≠ []) :
    ∃ e, f.nextEndpoint r = (.ok e, { f with hostCounter := f.hostCounter + 1 }) ∧
      e ∈ (f.hosts.getD (f.hostCounter % f.hosts.length) (RtmpHost.mk "" [])).endpoints := by
  have hmod : f.hostCounter % f.hosts.length < f.hosts.length := Nat.mod_lt _ hn
  have hmem : f.hosts.get ⟨f.hostCounter % f.hosts.length, hmod⟩ ∈ f.hosts :=
    List.get_mem _ _ _
  have hepos : 0 < (f.hosts.get ⟨f.hostCounter % f.hosts.length, hmod⟩).endpoints.length :=
    List.length_pos.mpr (hne _ hmem)
  have hnh : f.nextHost =
      (.ok (f.hosts.get ⟨f.hostCounter % f.hosts.length, hmod⟩),
       { f with hostCounter := f.hostCounter + 1 }) := by
    simp only [RtmpStreamFactory.nextHost, dif_neg (Nat.pos_iff_ne_zero.mp hn)]
  have hrand : (f.hosts.get ⟨f.hostCounter % f.hosts.length, hmod⟩).getRandomEndpoint r
      = some ((f.hosts.get ⟨f.hostCounter % f.hosts.length, hmod⟩).endpoints.get
          ⟨r % _, Nat.mod_lt _ hepos⟩) := by
    simp only [RtmpHost.getRandomEndpoint, dif_neg (Nat.pos_iff_ne_zero.mp hepos)]
  refine ⟨(f.hosts.get ⟨f.hostCounter % f.hosts.length, hmod⟩).endpoints.get
      ⟨r % _, Nat.mod_lt _ hepos⟩, ?_, ?_⟩
  · show nextEndpointAux r (f.hosts.length + 1) f = _
    simp only [nextEndpointAux, hnh, hrand, if_pos hepos]
  · rw [List.getD_eq_get f.hosts _ hmod]
    exact List.get_mem _ _ _

theorem selectRun_spec (rs : List Nat) (f : RtmpStreamFactory)
    (hn : 0 < f.hosts.length) (hne : ∀ h ∈ f.hosts, h.endpoints ≠ []) :
    (selectRun f rs).2.hosts = f.hosts ∧
    ∀ k, k < rs.length → ∃ e,
      (selectRun f rs).1.getD k (.error .ErrorNoURLs) = .ok e ∧
      e ∈ (f.hosts.getD ((f.hostCounter + k) % f.hosts.length)
            (RtmpHost.mk "" [])).endpoints := by
  induction rs generalizing f with
  | nil => exact ⟨rfl, fun k hk => absurd hk (by simp)⟩
  | cons r rest ih =>
    obtain ⟨e0, heq, hmem⟩ := nextEndpoint_success f r hn hne
    obtain ⟨hhosts, hres⟩ := ih { f with hostCounter := f.hostCounter + 1 } hn hne
    have hsel : selectRun f (r :: rest)
        = (.ok e0 :: (selectRun { f with hostCounter := f.hostCounter + 1 } rest).1,
           (selectRun { f with hostCounter := f.hostCounter + 1 } rest).2) := by
      simp only [selectRun, heq]
    refine ⟨by rw [hsel]; exact hhosts, ?_⟩
    intro k hk
    cases k with
    | zero =>
      refine ⟨e0, ?_, by simpa using hmem⟩
      rw [hsel]
      rfl
    | succ k =>
      have hk2 : k < rest.length := by simpa using hk
      obtain ⟨e, he1, he2⟩ := hres k hk2
      refine ⟨e, ?_, ?_⟩
      · rw [hsel]
        simpa using he1
      · rw [show f.hostCounter + (k + 1) = f.hostCounter + 1 + k by omega]
        exact he2

theorem roundRobin_hits (n c j : Nat) (hn : 0 < n) (hj : j < n) :
    ∃ k1, k1 < n ∧ (c + k1) % n = j := by
  have hm : c % n < n := Nat.mod_lt _ hn
  rcases Nat.lt_or_ge j (c % n) with hcase | hcase
  · refine ⟨j + n - c % n, by omega, ?_⟩
    rw [Nat.add_mod c _ n, Nat.mod_eq_of_lt (show j + n - c % n < n by omega)]
    rw [show c % n + (j + n - c % n) = j + n by omega, Nat.add_mod_right]
    exact Nat.mod_eq_of_lt hj
  · refine ⟨j - c % n, by omega, ?_⟩
    rw [Nat.add_mod c _ n, Nat.mod_eq_of_lt (show j - c % n < n by omega)]
    rw [show c % n + (j - c % n) = j by omega]
    exact Nat.mod_eq_of_lt hj

theorem roundRobin_consecutive (n c k : Nat) (hn : 1 < n) :
    (c + k) % n ≠ (c + (k + 1)) % n := by
  intro h
  have h2 : n ∣ (c + (k + 1)) - (c + k) := (Nat.modEq_iff_dvd' (by omega)).mp h
  have h3 : (c + (k + 1)) - (c + k) = 1 := by omega
  rw [h3] at h2
  have := Nat.le_of_dvd (by omega) h2
  omega

/-- C6: over a registry in which every host has at least one endpoint, the
`k`-th of a sequence of `nextEndpoint` calls returns (successfully) an
endpoint of the host at index `(hostCounter + k) % hostCount` — the cursor
advances across hosts in insertion order with wrap-around.  Consequently a
run of `2 × hostCount` calls selects every host index at least twice, and
when more than one host is registered two consecutive calls never select the
same host index. -/
theorem C6_selectNext (f : RtmpStreamFactory) (rs : List Nat)
    (hn : 0 < f.hosts.length) (hne : ∀ h ∈ f.hosts, h.endpoints ≠ []) :
    (∀ k, k < rs.length → ∃ e,
      (selectRun f rs).1.getD k (.error .ErrorNoURLs) = .ok e ∧
      e ∈ (f.hosts.getD ((f.hostCounter + k) % f.hosts.length)
            (RtmpHost.mk "" [])).endpoints) ∧
    (rs.length = 2 * f.hosts.length →
      ∀ j, j < f.hosts.length → ∃ k1 k2, k1 < k2 ∧ k2 < rs.length ∧
        (f.hostCounter + k1) % f.hosts.length = j ∧
        (f.hostCounter + k2) % f.hosts.length = j) ∧
    (1 < f.hosts.length → ∀ k,
      (f.hostCounter + k) % f.hosts.length ≠ (f.hostCounter + (k + 1)) % f.hosts.length) := by
  refine ⟨(selectRun_spec rs f hn hne).2, ?_, fun h1 k => roundRobin_consecutive _ _ k h1⟩
  intro hlen j hj
  obtain ⟨k1, hk1, hhit⟩ := roundRobin_hits f.hosts.length f.hostCounter j hn hj
  refine ⟨k1, k1 + f.hosts.length, by omega, by omega, hhit, ?_⟩
  rw [← Nat.add_assoc, Nat.add_mod_right]
  exact hhit

theorem nextEndpointAux_allEmpty (r : Nat) (k : Nat) (f : RtmpStreamFactory)
    (hall : ∀ h ∈ f.hosts, h.endpoints = []) :
    (nextEndpointAux r k f).1 = .error .ErrorNoURLs := by
  induction k generalizing f with
  | zero => rfl
  | succ k ih =>
    by_cases h0 : f.hosts.length = 0
    · have hnh : f.nextHost = (.error .ErrorNoURLs, f) := by
        simp only [RtmpStreamFactory.nextHost, dif_pos h0]
      simp only [nextEndpointAux, hnh]
    · have hmod : f.hostCounter % f.hosts.length < f.hosts.length :=
        Nat.mod_lt _ (Nat.pos_of_ne_zero h0)
      have hnh : f.nextHost =
          (.ok (f.hosts.get ⟨f.hostCounter % f.hosts.length, hmod⟩),
           { f with hostCounter := f.hostCounter + 1 }) := by
        simp only [RtmpStreamFactory.nextHost, dif_neg h0]
      have hemp : (f.hosts.get ⟨f.hostCounter % f.hosts.length, hmod⟩).endpoints = [] :=
        hall _ (List.get_mem _ _ _)
      simp only [nextEndpointAux, hnh]
      rw [if_neg (by rw [hemp]; simp)]
      exact ih { f with hostCounter := f.hostCounter + 1 } hall

/-- C8: selecting from a registry with no hosts, or whose hosts all have
empty endpoint slices, yields precisely the distinguished `ErrorNoURLs`
signal (the selection code can produce no other error); and the worker's
open dispatch backs off and retries on that signal without touching the
`errors` counter, whereas any other open error increments it. -/
theorem C8_noEndpoints (f : RtmpStreamFactory) (r : Nat) (errors : IncrementedCounter) :
    (f.hosts = [] → f.nextEndpoint r = (.error .ErrorNoURLs, f)) ∧
    ((∀ h ∈ f.hosts, h.endpoints = []) →
      (f.nextEndpoint r).1 = .error .ErrorNoURLs) ∧
    (handleStreamOpenPhase (.error .ErrorNoURLs) errors = (errors, true)) ∧
    (∀ msg, handleStreamOpenPhase (.error (.other msg)) errors
      = (errors.Increment 1, false)) := by
  refine ⟨?_, fun hall => nextEndpointAux_allEmpty r _ f hall, rfl, fun _ => rfl⟩
  intro hempty
  have h0 : f.hosts.length = 0 := by rw [hempty]; rfl
  have hnh : f.nextHost = (.error .ErrorNoURLs, f) := by
    simp only [RtmpStreamFactory.nextHost, dif_pos h0]
  show nextEndpointAux r (f.hosts.length + 1) f = (.error .ErrorNoURLs, f)
  rw [h0]
  simp only [nextEndpointAux, hnh]

/-- Witness for C8: the empty registry and a registry of one endpoint-less
host both signal `ErrorNoURLs`; the open dispatch at that signal leaves the
`errors` counter at its value `7`. -/
theorem C8_noEndpoints_witness :
    ((RtmpStreamFactory.mk [] 0).nextEndpoint 3
      = (.error .ErrorNoURLs, RtmpStreamFactory.mk [] 0)) ∧
    (((RtmpStreamFactory.mk [RtmpHost.mk "h" []] 0).nextEndpoint 3).1
      = .error .ErrorNoURLs) ∧
    (handleStreamOpenPhase (.error .ErrorNoURLs) (IncrementedCounter.mk 7 0)
      = (IncrementedCounter.mk 7 0, true)) := by
  have h1 := C8_noEndpoints (RtmpStreamFactory.mk [] 0) 3 (IncrementedCounter.mk 7 0)
  have h2 := C8_noEndpoints (RtmpStreamFactory.mk [RtmpHost.mk "h" []] 0) 3
    (IncrementedCounter.mk 7 0)
  exact ⟨h1.1 rfl, h2.2.1 (by decide), h1.2.2.1⟩

/-- Witness for C6 at a registry of two hosts with one endpoint each,
cursor 0, and a run of `2 × 2` calls. -/
theorem C6_selectNext_witness :
    (∃ e, (selectRun (RtmpStreamFactory.mk
        [RtmpHost.mk "h1" [RtmpEndpoint.mk (GoURL.mk "rtmp" "h1" "/a/s" []) 0],
         RtmpHost.mk "h2" [RtmpEndpoint.mk (GoURL.mk "rtmp" "h2" "/a/s" []) 0]] 0)
        [5, 6, 7, 8]).1.getD 0 (.error .ErrorNoURLs) = .ok e ∧
      e ∈ ((RtmpStreamFactory.mk
        [RtmpHost.mk "h1" [RtmpEndpoint.mk (GoURL.mk "rtmp" "h1" "/a/s" []) 0],
         RtmpHost.mk "h2" [RtmpEndpoint.mk (GoURL.mk "rtmp" "h2" "/a/s" []) 0]] 0).hosts.getD
          ((0 + 0) % 2) (RtmpHost.mk "" [])).endpoints) ∧
    (∃ k1 k2, k1 < k2 ∧ k2 < 4 ∧ (0 + k1) % 2 = 1 ∧ (0 + k2) % 2 = 1) ∧
    ((0 + 0) % 2 ≠ (0 + (0 + 1)) % 2) := by
  have h := C6_selectNext (RtmpStreamFactory.mk
      [RtmpHost.mk "h1" [RtmpEndpoint.mk (GoURL.mk "rtmp" "h1" "/a/s" []) 0],
       RtmpHost.mk "h2" [RtmpEndpoint.mk (GoURL.mk "rtmp" "h2" "/a/s" []) 0]] 0)
    [5, 6, 7, 8] (by decide) (by decide)
  refine ⟨by simpa using h.1 0 (by decide), ?_, by simpa using h.2.2 (by decide) 0⟩
  have h2 := h.2.1 (by decide) 1 (by decide)
  simpa using h2

/-- Decimal value of a digit string (`strconv.Atoi` on `[1-9][0-9]*` template
captures; int overflow is not modelled). -/
def digitsToNat (ds : List Char) : Nat :=
  ds.foldl (fun a c => a * 10 + digitVal c) 0

/-- Go `strconv.Atoi`: optional sign followed by digits (overflow not
modelled). -/
def atoiInt (s : List Char) : Option Int :=
  let sr : Bool × List Char :=
    match s with
    | '-' :: r => (true, r)
    | '+' :: r => (false, r)
    | r => (false, r)
  if sr.2 = [] ∨ ¬ sr.2.all Char.isDigit then none
  else some (if sr.1 then -(digitsToNat sr.2 : Int) else (digitsToNat sr.2 : Int))

/-- Go `uint(i)` conversion of an `int` (wraps modulo `2^64`). -/
def uintOfInt (i : Int) : Nat := (i % ((U64 : Nat) : Int)).toNat

/-- Index of the first occurrence of `pat` in `s` (`strings.Index`). -/
def findSubstr (pat : List Char) : List Char → Option Nat
  | [] => if pat.isPrefixOf ([] : List Char) then some 0 else none
  | c :: t =>
    if pat.isPrefixOf (c :: t) then some 0
    else (findSubstr pat t).map fun i => i + 1

/-- `strings.Replace(s, pat, rep, 1)`: replace the first occurrence only. -/
def replaceFirst (s pat rep : List Char) : List Char :=
  match findSubstr pat s with
  | none => s
  | some i => s.take i ++ rep ++ s.drop (i + pat.length)

/-- Match of the template regex `{{([1-9][0-9]*) ([1-9][0-9]*)}}` anchored at
the start of the input, returning (whole match, min digits, max digits).
The digit runs are maximal, which coincides with the regex semantics here:
shortening a run would put a digit where the literal space or closing braces
are required.  The braces are written `\x7b`/`\x7d`. -/
def matchTemplateAt (s : List Char) : Option (List Char × List Char × List Char) :=
  match s with
  | '\x7b' :: '\x7b' :: rest =>
    let d1 := rest.takeWhile Char.isDigit
    let r1 := rest.dropWhile Char.isDigit
    match d1 with
    | [] => none
    | c1 :: _ =>
      if c1 = '0' then none
      else
        match r1 with
        | ' ' :: rest2 =>
          let d2 := rest2.takeWhile Char.isDigit
          let r2 := rest2.dropWhile Char.isDigit
          match d2 with
          | [] => none
          | c2 :: _ =>
            if c2 = '0' then none
            else
              match r2 with
              | '\x7d' :: '\x7d' :: _ =>
                some ('\x7b' :: '\x7b' :: (d1 ++ [' '] ++ d2 ++ ['\x7d', '\x7d']), d1, d2)
              | _ => none
        | _ => none
  | _ => none

/-- `urlTemplateRegex.FindStringSubmatch`: the leftmost match of the template
regex, as (whole match, min digits, max digits). -/
def findTemplate : List Char → Option (List Char × List Char × List Char)
  | [] => none
  | c :: t =>
    match matchTemplateAt (c :: t) with
    | some m => some m
    | none => findTemplate t

/-- `RtmpStreamFactory.generateURLs` (rtmp-stream.go:274-286): one URL string
per integer of the inclusive range, substituting the first occurrence of the
matched token; fails when the template does not contain the token. -/
def generateURLs (urlArg toReplace : List Char) (min max : Int) :
    Option (List (List Char)) :=
  if (findSubstr toReplace urlArg).isSome then
    some ((List.range (max - min + 1).toNat).map
      fun i => replaceFirst urlArg toReplace (toString (min + Int.ofNat i)).data)
  else none

/-- Query-string parser of the minimal `net/url` model: split on `&`, each
item split at its first `=` (no escaping, `;` separators, or empty-key
subtleties). -/
def parseQuery (s : List Char) : List (String × String) :=
  if s = [] then []
  else
    (splitOnChar '&' s).map fun kv =>
      match splitOnChar '=' kv with
      | [] => ("", "")
      | [k] => (String.mk k, "")
      | k :: v :: vs => (String.mk k, String.mk (List.intercalate ['='] (v :: vs)))

/-- Minimal model of Go `net/url.Parse` for absolute
`scheme://host/path?query` URLs (the shapes this program feeds it): splits
scheme at `://`, host at the first `/`, `?` or `#`, query at the first `?`;
no userinfo, ports, fragments or percent-escaping; an absent or empty scheme
is a parse error. -/
def parseURL (s : List Char) : Option GoURL :=
  match findSubstr "://".data s with
  | none => none
  | some i =>
    let scheme := s.take i
    if scheme = [] ∨ ¬ scheme.all Char.isAlpha then none
    else
      let rest := s.drop (i + 3)
      let hostChars := rest.takeWhile fun c => ¬ (c = '/' ∨ c = '?' ∨ c = '#')
      let rest2 := rest.drop hostChars.length
      let pathChars := rest2.takeWhile fun c => ¬ (c = '?')
      let queryChars : List Char :=
        match rest2.drop pathChars.length with
        | '?' :: qs => qs
        | _ => []
      some { scheme := String.mk scheme, host := String.mk hostChars,
             path := String.mk pathChars, query := parseQuery queryChars }

/-- `url.Values.Get`: first value stored under the key, `""` when absent. -/
def queryGet (q : List (String × String)) (key : String) : String :=
  match q.find? fun kv => kv.1 = key with
  | some kv => kv.2
  | none => ""

/-- Rendering of the minimal `net/url` model's `URL.String` for our shapes
(`url.Values.Encode` sorting is irrelevant at the at-most-one-key queries
this program produces, so the stored order is kept). -/
def GoURL.render (u : GoURL) : String :=
  u.scheme ++ "://" ++ u.host ++ u.path ++
    (if u.query = [] then ""
     else "?" ++ String.intercalate "&" (u.query.map fun kv => kv.1 ++ "=" ++ kv.2))

/-- The per-URL parsing loop of `RtmpStreamFactory.ParseURLArgument`
(rtmp-stream.go:233-271): parse each URL, extract the `pixels` query
parameter into the endpoint metadata (an unparsable value is logged and
leaves `pixels = 0`), delete the parameter from the query, and collect
parse failures into the multi-error.  Afterwards the host key is the first
endpoint's host; with no endpoints at all the whole call fails. -/
def parseEndpointURLs (unparsedURLs : List (List Char)) :
    String × List RtmpEndpoint × Option String :=
  let step := unparsedURLs.foldl
    (fun (acc : List RtmpEndpoint × List String) unparsed =>
      match parseURL unparsed with
      | none => (acc.1, acc.2 ++ ["Failed to parse URL"])
      | some u =>
        let pixelsStr := queryGet u.query "pixels"
        let pixels : Int :=
          if pixelsStr = "" then 0
          else
            match atoiInt pixelsStr.data with
            | some p => p
            | none => 0
        let u2 := { u with query := u.query.filter fun kv => ¬ (kv.1 = "pixels") }
        (acc.1 ++ [{ url := u2, pixels := uintOfInt pixels }], acc.2))
    ([], [])
  match step.1 with
  | [] => ("", [], some "Failed to parse streaming endpoint urls from template")
  | e :: es =>
    (e.url.host, e :: es, if step.2 = [] then none else some "multiError")

/-- `RtmpStreamFactory.ParseURLArgument` (rtmp-stream.go:204-272): when the
template regex matches, read min and max (`strconv.Atoi` cannot fail on the
captured digit strings except for overflow, which is not modelled), require
`min ≤ max`, expand with `generateURLs`; otherwise treat the argument as a
literal URL.  Either way the collected URL strings go through the per-URL
parsing loop. -/
def ParseURLArgument (urlArg : List Char) :
    String × List RtmpEndpoint × Option String :=
  match findTemplate urlArg with
  | some (whole, minS, maxS) =>
    let min : Int := digitsToNat minS
    let max : Int := digitsToNat maxS
    if min > max then
      ("", [], some "Minimal value cannot be greater than maximal value")
    else
      match generateURLs urlArg whole min max with
      | some urls => parseEndpointURLs urls
      | none => ("", [], some "URL generation based on template URL failed")
  | none => parseEndpointURLs [urlArg]

/-- C7: whenever the template token occurs in the spec and `min ≤ max`,
`generateURLs` produces exactly `max - min + 1` URL strings, the `i`-th
obtained by substituting the token's first occurrence with the decimal value
`min + i` (ascending order); concretely, parsing
`rtmp://host/{{1 3}}/stream` yields exactly the three endpoints with path
segments `1`, `2`, `3` in order and no error, and a `pixels=42` query
parameter is stored as the endpoint's metadata and removed from the stored
URL. -/
theorem C7_templateExpansion (urlArg toReplace : List Char) (mn mx : Int)
    (hle : mn ≤ mx) (hsub : (findSubstr toReplace urlArg).isSome = true) :
    (∃ l, generateURLs urlArg toReplace mn mx = some l ∧
      l.length = (mx - mn + 1).toNat ∧
      ∀ i, i < l.length →
        l.getD i [] = replaceFirst urlArg toReplace (toString (mn + Int.ofNat i)).data) ∧
    (ParseURLArgument "rtmp://host/\x7b\x7b1 3\x7d\x7d/stream".data
      = ("host",
         [RtmpEndpoint.mk (GoURL.mk "rtmp" "host" "/1/stream" []) 0,
          RtmpEndpoint.mk (GoURL.mk "rtmp" "host" "/2/stream" []) 0,
          RtmpEndpoint.mk (GoURL.mk "rtmp" "host" "/3/stream" []) 0], none)) ∧
    ((ParseURLArgument "rtmp://host/\x7b\x7b1 3\x7d\x7d/stream".data).2.1.map
        (fun e => e.url.render)
      = ["rtmp://host/1/stream", "rtmp://host/2/stream", "rtmp://host/3/stream"]) ∧
    (ParseURLArgument "rtmp://host/app/stream?pixels=42".data
      = ("host", [RtmpEndpoint.mk (GoURL.mk "rtmp" "host" "/app/stream" []) 42], none)) := by
  refine ⟨?_, by decide, by decide, by decide⟩
  have hgen : generateURLs urlArg toReplace mn mx
      = some ((List.range (mx - mn + 1).toNat).map
          fun i => replaceFirst urlArg toReplace (toString (mn + Int.ofNat i)).data) := by
    simp only [generateURLs, if_pos hsub]
  refine ⟨_, hgen, by simp, ?_⟩
  intro i hi
  simp only [List.length_map, List.length_range] at hi
  simp [List.getD_eq_getElem?_getD, List.getElem?_map, List.getElem?_range, hi]

/-- Witness for C7: the hypotheses hold for the template
`rtmp://host/{{1 3}}/stream` with its token and range `1..3`, and the
expansion produces the three endpoints. -/
theorem C7_templateExpansion_witness :
    ((1 : Int) ≤ 3) ∧
    ((findSubstr "\x7b\x7b1 3\x7d\x7d".data
        "rtmp://host/\x7b\x7b1 3\x7d\x7d/stream".data).isSome = true) ∧
    (ParseURLArgument "rtmp://host/\x7b\x7b1 3\x7d\x7d/stream".data
      = ("host",
         [RtmpEndpoint.mk (GoURL.mk "rtmp" "host" "/1/stream" []) 0,
          RtmpEndpoint.mk (GoURL.mk "rtmp" "host" "/2/stream" []) 0,
          RtmpEndpoint.mk (GoURL.mk "rtmp" "host" "/3/stream" []) 0], none)) :=
  ⟨by decide, by decide,
    (C7_templateExpansion "rtmp://host/\x7b\x7b1 3\x7d\x7d/stream".data
      "\x7b\x7b1 3\x7d\x7d".data 1 3 (by decide) (by decide)).2.1⟩

end StreamStats
